import Mathlib

/-!
Verification of the match state machine of `server/game.py` and the controller
poll protocol of `server/server.py` (deeper-blue/negativei2-server).

The chess rules engine (the external `python-chess` library) is out of scope of
the repository; it is modelled by the `Board` record of the facts `Game`
queries on a `chess.Board`, together with an abstract `Engine.pushSan`
function standing for `board.push_san`.  Facts that are guarantees of
`python-chess` (e.g. `board.result(claim_draw=True) == '*'` exactly when
`not board.is_game_over(claim_draw=True)`) appear as explicit hypotheses or
`Engine` fields, each annotated with its origin.
-/

namespace Negativei2

/-- The two sides, `'w'` and `'b'` in `server/game.py` (`WHITE`/`BLACK`).
The spec calls them FIRST and SECOND. -/
inductive Side where
  | w
  | b
deriving DecidableEq, Repr

/-- `Game._invert`: inverts `'w'` and `'b'`. -/
def Side.invert : Side → Side
  | .w => .b
  | .b => .w

/-- A per-side mapping, embedding the Python dicts keyed by `WHITE`/`BLACK`. -/
structure SidePair (α : Type) where
  w : α
  b : α
deriving DecidableEq, Repr

/-- Dictionary lookup `d[side]`. -/
def SidePair.get (p : SidePair α) : Side → α
  | .w => p.w
  | .b => p.b

/-- Dictionary update `d[side] = x`. -/
def SidePair.set (p : SidePair α) : Side → α → SidePair α
  | .w, x => { p with w := x }
  | .b, x => { p with b := x }

/-- One side's draw-offer record `{'made': ..., 'accepted': ...}`. -/
structure Offer where
  made : Bool
  accepted : Bool
deriving DecidableEq, Repr

/-- The facts `Game` queries on the external `chess.Board` object
(python-chess).  Each field names the method of `chess.Board` it embeds. -/
structure Board where
  /-- `board.is_game_over(claim_draw=True)` -/
  isGameOverClaim : Bool
  /-- `board.can_claim_threefold_repetition()` -/
  canClaimThreefold : Bool
  /-- `board.can_claim_fifty_moves()` -/
  canClaimFifty : Bool
  /-- `board.is_seventyfive_moves()` -/
  isSeventyfiveMoves : Bool
  /-- `board.is_insufficient_material()` -/
  isInsufficientMaterial : Bool
  /-- `board.is_checkmate()` -/
  isCheckmate : Bool
  /-- `board.is_stalemate()` -/
  isStalemate : Bool
  /-- `board.is_fivefold_repetition()` -/
  isFivefold : Bool
  /-- `board.result(claim_draw=True)` -/
  resultClaim : String
  /-- `board.turn` (`True` is white) -/
  turnWhite : Bool
  /-- `board.fullmove_number` -/
  fullmoveNumber : Nat
deriving DecidableEq, Repr

/-- Coherence guarantee of python-chess: `board.result(claim_draw=True)`
returns `'*'` exactly when `board.is_game_over(claim_draw=True)` is false
(both delegate to the same termination checks). -/
def BoardOk (b : Board) : Prop :=
  (b.resultClaim = "*") ↔ (b.isGameOverClaim = false)

/-- `chess.Board()` — the standard start position, as `Game.__init__` builds.
The field values are the python-chess answers on the start position. -/
def initialBoard : Board where
  isGameOverClaim := false
  canClaimThreefold := false
  canClaimFifty := false
  isSeventyfiveMoves := false
  isInsufficientMaterial := false
  isCheckmate := false
  isStalemate := false
  isFivefold := false
  resultClaim := "*"
  turnWhite := true
  fullmoveNumber := 1

/-- `promotion` sub-dict of the extended move description. -/
structure PromoInfo where
  promotion : Bool
  piece : Option String
deriving DecidableEq, Repr

/-- `capture` sub-dict of the extended move description. -/
structure CaptureInfo where
  capture : Bool
  piece : Option String
deriving DecidableEq, Repr

/-- `castle` sub-dict of the extended move description. -/
structure CastleInfo where
  castle : Bool
  side : Option String
deriving DecidableEq, Repr

/-- `en_passant` sub-dict of the extended move description. -/
structure EpInfo where
  en_passant : Bool
  square : Option String
deriving DecidableEq, Repr

/-- The extended move description built by `Game._construct_move_description`
(with the `san` key merged in by `Game.move`).  `fromSq`/`toSq` are the
`'from'`/`'to'` keys (square names). -/
structure MoveDesc where
  san : String
  side : String
  ply_count : Nat
  move_count : Nat
  piece : String
  fromSq : String
  toSq : String
  promotion : PromoInfo
  capture : CaptureInfo
  castle : CastleInfo
  en_passant : EpInfo
deriving DecidableEq, Repr

/-- Placeholder descriptor (used only to totalize a list lookup that Python
performs with a plain index; the theorems carry the bound making it exact). -/
def defaultMoveDesc : MoveDesc where
  san := ""
  side := ""
  ply_count := 0
  move_count := 0
  piece := ""
  fromSq := ""
  toSq := ""
  promotion := ⟨false, none⟩
  capture := ⟨false, none⟩
  castle := ⟨false, none⟩
  en_passant := ⟨false, none⟩

/-- The queries `Game._construct_move_description` makes about the move object
and the pre-move board (the function pops the move, queries, then re-pushes;
so every query below is against the position before the move). -/
structure MoveFacts where
  /-- `move.from_square` (0..63) -/
  fromSquare : Int
  /-- `move.to_square` (0..63) -/
  toSquare : Int
  /-- `chess.PIECE_SYMBOLS[move.promotion].lower()` when `move.promotion` is
  not `None`, else `none` -/
  promotion : Option String
  /-- `board.piece_at(move.from_square).symbol().lower()` -/
  pieceAtFrom : String
  /-- `board.is_capture(move)` -/
  isCapture : Bool
  /-- `board.is_castling(move)` -/
  isCastling : Bool
  /-- `board.is_en_passant(move)` -/
  isEnPassant : Bool
  /-- `board.is_kingside_castling(move)` -/
  isKingside : Bool
  /-- `board.is_queenside_castling(move)` -/
  isQueenside : Bool
  /-- `board.piece_at(move.to_square).symbol().lower()` (`none` if empty) -/
  pieceAtTo : Option String
  /-- `board.ep_square` (meaningful only when `isEnPassant`) -/
  epSquare : Int
deriving Repr

/-- `chess.square_name(s)`: file letter `a..h` from `s % 8`, rank digit
`1..8` from `s // 8` (for the valid squares 0..63). -/
def squareName (s : Int) : String :=
  String.mk [Char.ofNat (97 + s.toNat % 8), Char.ofNat (49 + s.toNat / 8)]

/-- The external rules engine: `board.push_san(san)` either rejects the SAN
(raising `ValueError`, modelled as `none` — python-chess parses before it
mutates, so a rejection leaves the board unchanged) or yields the new board
together with the move-object facts used to build the move description. -/
structure Engine where
  pushSan : Board → String → Option (Board × MoveFacts)
  /-- python-chess guarantee: every board it produces satisfies `BoardOk`. -/
  pushBoardOk : ∀ b san r, pushSan b san = some r → BoardOk r.1

/-- The state held in a `Game` object's internal attributes. -/
structure GameState where
  /-- `_id` -/
  gid : Option String
  /-- `_creator` -/
  creator : String
  /-- `_time_controls` -/
  timeControls : Option Int
  /-- `_remaining_time` -/
  remainingTime : SidePair (Option Int)
  /-- `_board` -/
  board : Board
  /-- `_players` -/
  players : SidePair (Option String)
  /-- `_plies` -/
  plies : Nat
  /-- `_history` -/
  history : List MoveDesc
  /-- `_resigned` -/
  resigned : SidePair Bool
  /-- `_draw_offers` -/
  drawOffers : SidePair Offer
deriving DecidableEq, Repr

namespace Game

/-- `Game.__init__(creator_id, game_id, time_controls)` (after its argument
validation; a negative `time_controls` raises and creates nothing). -/
def init (creator : String) (gameId : Option String) (timeControls : Option Int) :
    GameState where
  gid := gameId
  creator := creator
  timeControls := timeControls
  remainingTime := ⟨timeControls, timeControls⟩
  board := initialBoard
  players := ⟨none, none⟩
  plies := 0
  history := []
  resigned := ⟨false, false⟩
  drawOffers := ⟨⟨false, false⟩, ⟨false, false⟩⟩

/-- `Game.turn`: `WHITE if self._board.turn else BLACK`. -/
def turn (s : GameState) : Side :=
  if s.board.turnWhite then Side.w else Side.b

/-- `Game.result`: base result from the board, then the override chain
(each later `if` reassigns `result`). -/
def result (s : GameState) : String :=
  let r := s.board.resultClaim
  let r := if s.resigned.w then "0-1" else r
  let r := if s.resigned.b then "1-0" else r
  let r := if s.drawOffers.w.accepted ∨ s.drawOffers.b.accepted then "1/2-1/2" else r
  let r := if s.remainingTime.w = some 0 then "0-1" else r
  let r := if s.remainingTime.b = some 0 then "1-0" else r
  let r := if s.remainingTime.w = some 0 ∧ s.remainingTime.b = some 0 then "1/2-1/2" else r
  r

/-- `Game.in_progress`: `self.result == '*'`. -/
def in_progress (s : GameState) : Bool :=
  result s == "*"

/-- The dict returned by `Game.game_over`. -/
structure OverStatus where
  game_over : Bool
  reason : Option String
deriving DecidableEq, Repr

/-- `Game.game_over`: the rules-based branch returns first when
`board.is_game_over(claim_draw=True)`; inside it, each later `if` reassigns
`reason` (the initial `none` stands for the name being unbound, which
python-chess coherence makes unreachable). -/
def game_over (s : GameState) : OverStatus :=
  if s.board.isGameOverClaim then
    let reason : Option String := none
    let reason := if s.board.canClaimThreefold then some "Three-fold repetition" else reason
    let reason := if s.board.canClaimFifty then some "Fifty move rule" else reason
    let reason := if s.board.isSeventyfiveMoves then some "Seventy-five move rule" else reason
    let reason := if s.board.isInsufficientMaterial then some "Insufficient material" else reason
    let reason := if s.board.isCheckmate then some "Checkmate" else reason
    let reason := if s.board.isStalemate then some "Stalemate" else reason
    let reason := if s.board.isFivefold then some "Five-fold repetition" else reason
    ⟨true, reason⟩
  else if s.resigned.w || s.resigned.b then ⟨true, some "Resignation"⟩
  else if s.drawOffers.w.accepted || s.drawOffers.b.accepted then ⟨true, some "Draw by agreement"⟩
  else if s.remainingTime.w = some 0 || s.remainingTime.b = some 0 then ⟨true, some "Time"⟩
  else ⟨false, none⟩

/-- `Game._construct_move_description` (minus the `san` key merged in later):
built after the move was pushed, by popping it first — so `self.turn`,
`self.move_count` and all board queries are against the pre-move board
`pre`, while `self.ply_count` is the already incremented `plies`. -/
def constructMoveDescription (pre : Board) (plies : Nat) (f : MoveFacts) : MoveDesc :=
  let turnStr := if pre.turnWhite then "w" else "b"
  let d : MoveDesc :=
    { san := ""
      side := turnStr
      ply_count := plies
      move_count := pre.fullmoveNumber
      piece := f.pieceAtFrom
      fromSq := squareName f.fromSquare
      toSq := squareName f.toSquare
      promotion := ⟨f.promotion.isSome, none⟩
      capture := ⟨f.isCapture, none⟩
      castle := ⟨f.isCastling, none⟩
      en_passant := ⟨f.isEnPassant, none⟩ }
  let d := if f.promotion.isSome then { d with promotion := ⟨true, f.promotion⟩ } else d
  let d :=
    if f.isCapture then
      if f.isEnPassant then
        let down : Int := if turnStr = "w" then -8 else 8
        { d with
          en_passant := ⟨true, some (squareName (f.epSquare + down))⟩
          capture := ⟨true, some "p"⟩ }
      else { d with capture := ⟨true, f.pieceAtTo⟩ }
    else d
  let d :=
    if f.isCastling then
      if f.isKingside then { d with castle := ⟨true, some "k"⟩ }
      else if f.isQueenside then { d with castle := ⟨true, some "q"⟩ }
      else d
    else d
  d

/-- `Game.accept_draw(side)`. -/
def accept_draw (s : GameState) (sideArg : Option Side) : GameState :=
  let side := sideArg.getD (turn s)
  if in_progress s = false then s
  else if (s.drawOffers.get side.invert).made = false then s
  else
    { s with
      drawOffers :=
        s.drawOffers.set side.invert { s.drawOffers.get side.invert with accepted := true } }

/-- `Game.decline_draw(side)`. -/
def decline_draw (s : GameState) (sideArg : Option Side) : GameState :=
  let side := sideArg.getD (turn s)
  if in_progress s = false then s
  else if (s.drawOffers.get side.invert).made = false then s
  else if (s.drawOffers.get side.invert).accepted then s
  else
    { s with
      drawOffers :=
        s.drawOffers.set side.invert { s.drawOffers.get side.invert with made := false } }

/-- `Game.offer_draw(side)`. -/
def offer_draw (s : GameState) (sideArg : Option Side) : GameState :=
  let side := sideArg.getD (turn s)
  if in_progress s = false then s
  else if (s.drawOffers.get side).made then s
  else
    let s1 := if (s.drawOffers.get side.invert).made then accept_draw s (some side) else s
    { s1 with
      drawOffers := s1.drawOffers.set side { s1.drawOffers.get side with made := true } }

/-- `Game.resign(side)`. -/
def resign (s : GameState) (sideArg : Option Side) : GameState :=
  let side := sideArg.getD (turn s)
  if in_progress s = false then s
  else if s.resigned.get side then s
  else { s with resigned := s.resigned.set side true }

/-- `Game.time_delta(delta, side)`.  In every state this embedding is used on,
`_remaining_time[side]` is an int whenever `_time_controls` is (they both come
from `time_controls` and only `time_delta` rewrites them), so the `getD 0`
totalization is never exercised. -/
def time_delta (s : GameState) (delta : Int) (sideArg : Option Side) : GameState :=
  let side := sideArg.getD (turn s)
  if s.timeControls = none then s
  else if in_progress s = false then s
  else if s.remainingTime.get side = some 0 then s
  else
    let cur := (s.remainingTime.get side).getD 0
    if delta < 0 ∧ cur + delta < 0 then
      { s with remainingTime := s.remainingTime.set side (some 0) }
    else
      { s with remainingTime := s.remainingTime.set side (some (cur + delta)) }

/-- The exceptions `Game.move` raises: the game-over `RuntimeError`, the
no-player `RuntimeError`, and the `ValueError` from `board.push_san`. -/
inductive MoveError where
  | matchOver
  | noPlayer
  | illegalMove
deriving DecidableEq, Repr

/-- `Game.move(san)`.  Returns the post-state (`self` after the call — equal
to the input state when an exception is raised, since every check precedes
every mutation) together with the outcome. -/
def move (E : Engine) (s : GameState) (san : String) :
    GameState × Except MoveError MoveDesc :=
  if in_progress s = false then (s, .error .matchOver)
  else if (s.players.get (turn s)).isNone then (s, .error .noPlayer)
  else
    match E.pushSan s.board san with
    | none => (s, .error .illegalMove)
    | some (b2, f) =>
      let s1 : GameState := { s with board := b2, plies := s.plies + 1 }
      let s2 := decline_draw (decline_draw s1 (some Side.w)) (some Side.b)
      let desc := { constructMoveDescription s.board s1.plies f with san := san }
      ({ s2 with history := s2.history ++ [desc] }, .ok desc)

/-- The exceptions `Game.add_player` raises on a well-typed call: the same-ID
`RuntimeError` and the occupied-slot `RuntimeError`. -/
inductive AddPlayerError where
  | sameId
  | occupied
deriving DecidableEq, Repr

/-- `Game.add_player(id_, side)` (the side/type validation is carried by the
Lean types).  Returns the post-state and the raised error, if any. -/
def add_player (s : GameState) (pid : String) (side : Side) :
    GameState × Option AddPlayerError :=
  if s.players.get side.invert = some pid then (s, some .sameId)
  else
    match s.players.get side with
    | none => ({ s with players := s.players.set side (some pid) }, none)
    | some _ => (s, some .occupied)

end Game

/-- The states a `Game` object can be in: a fresh `Game.__init__` (with the
constructor's validation: negative time controls are rejected) followed by any
sequence of the public mutating operations. -/
inductive Reach (E : Engine) : GameState → Prop where
  | init (creator : String) (gameId : Option String) (tc : Option Int)
      (h : ∀ t, tc = some t → 0 ≤ t) :
      Reach E (Game.init creator gameId tc)
  | move (s : GameState) (san : String) (hs : Reach E s) :
      Reach E (Game.move E s san).1
  | addPlayer (s : GameState) (pid : String) (side : Side) (hs : Reach E s) :
      Reach E (Game.add_player s pid side).1
  | timeDelta (s : GameState) (delta : Int) (sideArg : Option Side) (hs : Reach E s) :
      Reach E (Game.time_delta s delta sideArg)
  | resign (s : GameState) (sideArg : Option Side) (hs : Reach E s) :
      Reach E (Game.resign s sideArg)
  | offerDraw (s : GameState) (sideArg : Option Side) (hs : Reach E s) :
      Reach E (Game.offer_draw s sideArg)
  | acceptDraw (s : GameState) (sideArg : Option Side) (hs : Reach E s) :
      Reach E (Game.accept_draw s sideArg)
  | declineDraw (s : GameState) (sideArg : Option Side) (hs : Reach E s) :
      Reach E (Game.decline_draw s sideArg)

/-! ## The controller poll protocol (`server/server.py`, `controller_poll`) -/

/-- The Firestore controller document (`controllers/<board_id>`), as written by
`register_controller` and rewritten by `controller_poll`. -/
structure ControllerDoc where
  board_id : String
  board_version : String
  /-- `game_id` — the assigned match, if any. -/
  game_id : Option String
  /-- `last_ply_count` -/
  last_ply_count : Nat
  /-- `last_seen` (`time.time()`; an abstract tick, the poll response does not
  depend on it). -/
  last_seen : Nat
deriving DecidableEq, Repr

/-- The fields of the stored game document (`Game.to_dict` output) that
`controller_poll` reads. -/
structure GameDoc where
  game_over : Game.OverStatus
  ply_count : Nat
  history : List MoveDesc
deriving DecidableEq, Repr

/-- The JSON body `controller_poll` returns. -/
structure PollResponse where
  game_over : Game.OverStatus
  history : List MoveDesc
deriving DecidableEq, Repr

/-- The `socketio.emit` calls `controller_poll` makes. -/
inductive PollEvent where
  | controllerFinished (ply : Nat)
  | controllerError (code : Int)
deriving DecidableEq, Repr

/-- The loop `for i in range(p, q): out.append(hist[i])` of `controller_poll`
(the callers guarantee `q <= len(hist)`, under which the `getD` totalization
is exact). -/
def catchUp (hist : List MoveDesc) (p q : Nat) : List MoveDesc :=
  (List.range (q - p)).map (fun j => hist.getD (p + j) defaultMoveDesc)

/-- `controller_poll`, after schema validation (`ControllerPollInput` has
already checked: the controller is registered and not timed out,
`ply_count >= 0`, `error >= 0` when supplied, and — when a game is assigned —
`ply_count` does not exceed the game's and `error` does not exceed
`ply_count`).  `error` is `int(request.form.get('error', -1))`: `-1` is the
sentinel for an absent error field.  Returns the rewritten controller
document, the response body, and the emitted events. -/
def controller_poll (ctrl : ControllerDoc) (getGame : String → Option GameDoc)
    (ply_count : Nat) (error : Int) (now : Nat) :
    ControllerDoc × PollResponse × List PollEvent :=
  let finishedEvents : List PollEvent :=
    if ctrl.last_ply_count < ply_count then [.controllerFinished ply_count] else []
  let ctrl2 : ControllerDoc := { ctrl with last_seen := now, last_ply_count := ply_count }
  let errorEvents : List PollEvent :=
    if error ≠ -1 then [.controllerError error] else []
  let resp : PollResponse :=
    match ctrl.game_id with
    | none => ⟨⟨false, none⟩, []⟩
    | some gameId =>
      if error = -1 then
        match getGame gameId with
        | some g => ⟨g.game_over, catchUp g.history ply_count g.ply_count⟩
        | none => ⟨⟨false, none⟩, []⟩
      else ⟨⟨false, none⟩, []⟩
  (ctrl2, resp, finishedEvents ++ errorEvents)

/-! ## Concrete boards, engines and states (used by witnesses and
counterexamples) -/

/-- An engine that rejects every SAN (sufficient for scenarios that never
reach a successful `push_san`). -/
def trivialEngine : Engine where
  pushSan := fun _ _ => none
  pushBoardOk := by intro b san r h; simp at h

/-- The board after fool's mate (1.f3 e5 2.g4 Qh4#): checkmate, white to
move, result `0-1`. -/
def mateBoard : Board where
  isGameOverClaim := true
  canClaimThreefold := false
  canClaimFifty := false
  isSeventyfiveMoves := false
  isInsufficientMaterial := false
  isCheckmate := true
  isStalemate := false
  isFivefold := false
  resultClaim := "0-1"
  turnWhite := true
  fullmoveNumber := 3

/-- The board before black's mating move 2...Qh4# of fool's mate. -/
def preMateBoard : Board where
  isGameOverClaim := false
  canClaimThreefold := false
  canClaimFifty := false
  isSeventyfiveMoves := false
  isInsufficientMaterial := false
  isCheckmate := false
  isStalemate := false
  isFivefold := false
  resultClaim := "*"
  turnWhite := false
  fullmoveNumber := 2

/-- The move-object facts of 2...Qh4# (d8 = 59, h4 = 31; no capture). -/
def mateFacts : MoveFacts where
  fromSquare := 59
  toSquare := 31
  promotion := none
  pieceAtFrom := "q"
  isCapture := false
  isCastling := false
  isEnPassant := false
  isKingside := false
  isQueenside := false
  pieceAtTo := none
  epSquare := 0

/-- An engine standing for python-chess at the pre-mate position: pushing any
SAN yields the fool's-mate board. -/
def mateEngine : Engine where
  pushSan := fun _ _ => some (mateBoard, mateFacts)
  pushBoardOk := by
    intro b san r h
    simp only [Option.some.injEq] at h
    subst h
    unfold BoardOk
    decide

/-- A game one ply before fool's mate in which white has a pending draw offer:
black to move, both sides occupied, untimed. -/
def preMateGame : GameState where
  gid := some "g1"
  creator := "c1"
  timeControls := none
  remainingTime := ⟨none, none⟩
  board := preMateBoard
  players := ⟨some "p1", some "p2"⟩
  plies := 3
  history := []
  resigned := ⟨false, false⟩
  drawOffers := ⟨⟨true, false⟩, ⟨false, false⟩⟩

/-- A quiet board with white to move (standing for a mid-game position that
is not over), used for the en-passant scenario 3.exd6 after
1.e4 Nf6 2.e5 d5. -/
def quietBoardW : Board where
  isGameOverClaim := false
  canClaimThreefold := false
  canClaimFifty := false
  isSeventyfiveMoves := false
  isInsufficientMaterial := false
  isCheckmate := false
  isStalemate := false
  isFivefold := false
  resultClaim := "*"
  turnWhite := true
  fullmoveNumber := 3

/-- The position after 3.exd6 e.p. (black to move). -/
def quietBoardB : Board where
  isGameOverClaim := false
  canClaimThreefold := false
  canClaimFifty := false
  isSeventyfiveMoves := false
  isInsufficientMaterial := false
  isCheckmate := false
  isStalemate := false
  isFivefold := false
  resultClaim := "*"
  turnWhite := false
  fullmoveNumber := 3

/-- The move-object facts of the en-passant capture 3.exd6 (e5 = 36, d6 = 43,
`board.ep_square` = d6 = 43; the captured pawn stands on d5 = 35). -/
def epFacts : MoveFacts where
  fromSquare := 36
  toSquare := 43
  promotion := none
  pieceAtFrom := "p"
  isCapture := true
  isCastling := false
  isEnPassant := true
  isKingside := false
  isQueenside := false
  pieceAtTo := none
  epSquare := 43

/-- An engine standing for python-chess at the pre-en-passant position. -/
def epEngine : Engine where
  pushSan := fun _ _ => some (quietBoardB, epFacts)
  pushBoardOk := by
    intro b san r h
    simp only [Option.some.injEq] at h
    subst h
    unfold BoardOk
    decide

/-- The game before 3.exd6 e.p.: white to move, both sides occupied. -/
def epGame : GameState where
  gid := some "g2"
  creator := "c1"
  timeControls := none
  remainingTime := ⟨none, none⟩
  board := quietBoardW
  players := ⟨some "p1", some "p2"⟩
  plies := 4
  history := []
  resigned := ⟨false, false⟩
  drawOffers := ⟨⟨false, false⟩, ⟨false, false⟩⟩

/-- A registered controller assigned to game `"b1g"`, fully caught up to
ply 0. -/
def pollCtrl : ControllerDoc where
  board_id := "b1"
  board_version := "v1"
  game_id := some "b1g"
  last_ply_count := 0
  last_seen := 0

/-- Two distinct stored move descriptors. -/
def pollDesc1 : MoveDesc :=
  { defaultMoveDesc with san := "e4", side := "w", ply_count := 1, move_count := 1 }

/-- Second stored move descriptor. -/
def pollDesc2 : MoveDesc :=
  { defaultMoveDesc with san := "e5", side := "b", ply_count := 2, move_count := 1 }

/-- A stored game document with two history entries. -/
def pollGame : GameDoc where
  game_over := ⟨false, none⟩
  ply_count := 2
  history := [pollDesc1, pollDesc2]

/-- The Firestore games collection holding only `pollGame` at id `"b1g"`. -/
def pollStore : String → Option GameDoc :=
  fun gameId => if gameId = "b1g" then some pollGame else none

/-- `Game.result` evaluated in the priority order stated by the spec
("later rule overrides earlier"): base rules result, FIRST wins if SECOND
resigned, then SECOND wins if FIRST resigned, draw on accepted offer, clock
overrides.  This follows the spec text; the code applies the two resignation
overrides in the opposite order. -/
def resultSpecOrder (s : GameState) : String :=
  let r := s.board.resultClaim
  let r := if s.resigned.b then "1-0" else r
  let r := if s.resigned.w then "0-1" else r
  let r := if s.drawOffers.w.accepted ∨ s.drawOffers.b.accepted then "1/2-1/2" else r
  let r := if s.remainingTime.w = some 0 then "0-1" else r
  let r := if s.remainingTime.b = some 0 then "1-0" else r
  let r := if s.remainingTime.w = some 0 ∧ s.remainingTime.b = some 0 then "1/2-1/2" else r
  r

/-- The draw-offer handshake invariant: both offers can be simultaneously
`made` only after one of them was accepted. -/
def OffersProp (p : SidePair Offer) : Prop :=
  p.w.made = true → p.b.made = true → p.w.accepted = true ∨ p.b.accepted = true

/-- The inductive invariant of reachable `Game` states. -/
structure Inv (s : GameState) : Prop where
  boardOk : BoardOk s.board
  histLen : s.history.length = s.plies
  histPly : ∀ i (h : i < s.history.length), (s.history.get ⟨i, h⟩).ply_count = i + 1
  notBothResigned : ¬(s.resigned.w = true ∧ s.resigned.b = true)
  offersInv : OffersProp s.drawOffers
  zeroClock : s.remainingTime.w = some 0 ∨ s.remainingTime.b = some 0 →
    s.board.isGameOverClaim = false ∧ s.resigned.w = false ∧ s.resigned.b = false ∧
      s.drawOffers.w.accepted = false ∧ s.drawOffers.b.accepted = false

/-! ## Helper lemmas -/

/-- `Game.result` returns `'*'` exactly when no override fired and the board
itself reports `'*'`. -/
theorem result_eq_star_iff (s : GameState) :
    Game.result s = "*" ↔
      s.board.resultClaim = "*" ∧ s.resigned.w = false ∧ s.resigned.b = false ∧
        s.drawOffers.w.accepted = false ∧ s.drawOffers.b.accepted = false ∧
        s.remainingTime.w ≠ some 0 ∧ s.remainingTime.b ≠ some 0 := by
  unfold Game.result
  split_ifs with h1 h2 h3 h4 h5 h6 <;> constructor <;> intro hh <;> simp_all

/-- `Game.in_progress` as a proposition. -/
theorem in_progress_iff (s : GameState) :
    Game.in_progress s = true ↔ Game.result s = "*" := by
  unfold Game.in_progress
  exact beq_iff_eq

/-- Unpacked form of `in_progress`. -/
theorem in_progress_iff_flags (s : GameState) :
    Game.in_progress s = true ↔
      s.board.resultClaim = "*" ∧ s.resigned.w = false ∧ s.resigned.b = false ∧
        s.drawOffers.w.accepted = false ∧ s.drawOffers.b.accepted = false ∧
        s.remainingTime.w ≠ some 0 ∧ s.remainingTime.b ≠ some 0 :=
  (in_progress_iff s).trans (result_eq_star_iff s)

/-- `Game.game_over` reports `True` exactly when some termination condition
holds. -/
theorem game_over_true_iff (s : GameState) :
    (Game.game_over s).game_over = true ↔
      s.board.isGameOverClaim = true ∨ s.resigned.w = true ∨ s.resigned.b = true ∨
        s.drawOffers.w.accepted = true ∨ s.drawOffers.b.accepted = true ∨
        s.remainingTime.w = some 0 ∨ s.remainingTime.b = some 0 := by
  unfold Game.game_over
  split_ifs with h1 h2 h3 h4 <;> simp_all <;> tauto

/-- `Game.accept_draw` preserves the reachable-state invariant. -/
theorem accept_draw_inv (s : GameState) (a : Option Side) (h : Inv s) :
    Inv (Game.accept_draw s a) := by
  unfold Game.accept_draw
  dsimp only [Option.getD_some]
  generalize a.getD (Game.turn s) = side
  split_ifs with h1 h2
  · exact h
  · exact h
  · have hp : Game.in_progress s = true := by
      cases hq : Game.in_progress s
      · exact absurd hq h1
      · rfl
    obtain ⟨_, _, _, _, _, hw0, hb0⟩ := (in_progress_iff_flags s).1 hp
    obtain ⟨hbo, hlen, hply, hnr, hoi, hzc⟩ := h
    cases side <;>
      constructor <;>
        simp_all [Side.invert, SidePair.get, SidePair.set, OffersProp,
          List.get_eq_getElem]

/-- `Game.decline_draw` preserves the reachable-state invariant. -/
theorem decline_draw_inv (s : GameState) (a : Option Side) (h : Inv s) :
    Inv (Game.decline_draw s a) := by
  unfold Game.decline_draw
  dsimp only [Option.getD_some]
  generalize a.getD (Game.turn s) = side
  split_ifs with h1 h2 h3
  · exact h
  · exact h
  · exact h
  · have hp : Game.in_progress s = true := by
      cases hq : Game.in_progress s
      · exact absurd hq h1
      · rfl
    obtain ⟨_, _, _, _, _, hw0, hb0⟩ := (in_progress_iff_flags s).1 hp
    obtain ⟨hbo, hlen, hply, hnr, hoi, hzc⟩ := h
    cases side <;>
      constructor <;>
        simp_all [Side.invert, SidePair.get, SidePair.set, OffersProp,
          List.get_eq_getElem]

/-- `Game.offer_draw` preserves the reachable-state invariant. -/
theorem offer_draw_inv (s : GameState) (a : Option Side) (h : Inv s) :
    Inv (Game.offer_draw s a) := by
  unfold Game.offer_draw Game.accept_draw
  dsimp only [Option.getD_some]
  generalize a.getD (Game.turn s) = side
  split_ifs with h1 h2 h3 h4
  · exact h
  · exact h
  all_goals
    have hp : Game.in_progress s = true := by
      cases hq : Game.in_progress s
      · exact absurd hq h1
      · rfl
  all_goals obtain ⟨_, _, _, _, _, hw0, hb0⟩ := (in_progress_iff_flags s).1 hp
  all_goals obtain ⟨hbo, hlen, hply, hnr, hoi, hzc⟩ := h
  all_goals
    cases side <;>
      constructor <;>
        simp_all [Side.invert, SidePair.get, SidePair.set, OffersProp,
          List.get_eq_getElem]

/-- `Game.resign` preserves the reachable-state invariant. -/
theorem resign_inv (s : GameState) (a : Option Side) (h : Inv s) :
    Inv (Game.resign s a) := by
  unfold Game.resign
  dsimp only [Option.getD_some]
  generalize a.getD (Game.turn s) = side
  split_ifs with h1 h2
  · exact h
  · exact h
  · have hp : Game.in_progress s = true := by
      cases hq : Game.in_progress s
      · exact absurd hq h1
      · rfl
    obtain ⟨_, hrw, hrb, _, _, hw0, hb0⟩ := (in_progress_iff_flags s).1 hp
    obtain ⟨hbo, hlen, hply, hnr, hoi, hzc⟩ := h
    cases side <;>
      constructor <;>
        simp_all [SidePair.get, SidePair.set, OffersProp, List.get_eq_getElem]

/-- `Game.time_delta` preserves the reachable-state invariant. -/
theorem time_delta_inv (s : GameState) (delta : Int) (a : Option Side) (h : Inv s) :
    Inv (Game.time_delta s delta a) := by
  unfold Game.time_delta
  dsimp only [Option.getD_some]
  generalize a.getD (Game.turn s) = side
  split_ifs with h1 h2 h3 h4
  · exact h
  · exact h
  · exact h
  all_goals
    have hp : Game.in_progress s = true := by
      cases hq : Game.in_progress s
      · exact absurd hq h2
      · rfl
  all_goals obtain ⟨hstar, hrw, hrb, haw, hab, hw0, hb0⟩ := (in_progress_iff_flags s).1 hp
  all_goals have hgo : s.board.isGameOverClaim = false := (Inv.boardOk h).1 hstar
  all_goals obtain ⟨hbo, hlen, hply, hnr, hoi, hzc⟩ := h
  all_goals
    cases side <;>
      constructor <;>
        simp_all [SidePair.get, SidePair.set, OffersProp, List.get_eq_getElem]

/-- `Game.add_player` preserves the reachable-state invariant (it only writes
the `players` slot, which the invariant does not mention). -/
theorem add_player_inv (s : GameState) (pid : String) (side : Side) (h : Inv s) :
    Inv (Game.add_player s pid side).1 := by
  unfold Game.add_player
  split_ifs with h1
  · exact h
  · cases hq : s.players.get side
    · simp only [hq]
      exact ⟨h.boardOk, h.histLen, h.histPly, h.notBothResigned, h.offersInv, h.zeroClock⟩
    · simp only [hq]
      exact h

/-- `Game.decline_draw` writes at most the `drawOffers` field. -/
theorem decline_draw_update (s : GameState) (a : Option Side) :
    ∃ o, Game.decline_draw s a = { s with drawOffers := o } := by
  unfold Game.decline_draw
  dsimp only []
  generalize a.getD (Game.turn s) = side
  split_ifs
  · exact ⟨s.drawOffers, rfl⟩
  · exact ⟨s.drawOffers, rfl⟩
  · exact ⟨s.drawOffers, rfl⟩
  · exact ⟨_, rfl⟩

/-- `Game.decline_draw` preserves the draw-offer handshake invariant. -/
theorem decline_draw_offersProp (s : GameState) (a : Option Side)
    (h : OffersProp s.drawOffers) : OffersProp (Game.decline_draw s a).drawOffers := by
  unfold Game.decline_draw
  dsimp only []
  generalize a.getD (Game.turn s) = side
  split_ifs with h1 h2 h3
  · exact h
  · exact h
  · exact h
  · cases side <;> simp_all [OffersProp, SidePair.get, SidePair.set, Side.invert]

/-- The `ply_count` key of the constructed move description is the (already
incremented) ply counter. -/
theorem constructMoveDescription_ply (pre : Board) (n : Nat) (f : MoveFacts) :
    (Game.constructMoveDescription pre n f).ply_count = n := by
  unfold Game.constructMoveDescription
  dsimp only []
  split_ifs <;> rfl

/-- `Game.move` preserves the reachable-state invariant. -/
theorem move_inv (E : Engine) (s : GameState) (san : String) (h : Inv s) :
    Inv (Game.move E s san).1 := by
  unfold Game.move
  split_ifs with h1 h2
  · exact h
  · exact h
  · have hp : Game.in_progress s = true := by
      cases hq : Game.in_progress s
      · exact absurd hq h1
      · rfl
    obtain ⟨hstar, hrw, hrb, haw, hab, hw0, hb0⟩ := (in_progress_iff_flags s).1 hp
    cases hq : E.pushSan s.board san with
    | none => exact h
    | some r =>
      obtain ⟨b2, f⟩ := r
      have hbo2 : BoardOk b2 := E.pushBoardOk s.board san (b2, f) hq
      dsimp only []
      obtain ⟨o1, ho1⟩ :=
        decline_draw_update { s with board := b2, plies := s.plies + 1 } (some Side.w)
      have hop : OffersProp
          (Game.decline_draw
            (Game.decline_draw { s with board := b2, plies := s.plies + 1 } (some Side.w))
            (some Side.b)).drawOffers :=
        decline_draw_offersProp _ _ (decline_draw_offersProp _ _ h.offersInv)
      obtain ⟨o2, ho2⟩ :=
        decline_draw_update
          (Game.decline_draw { s with board := b2, plies := s.plies + 1 } (some Side.w))
          (some Side.b)
      rw [ho2] at hop ⊢
      rw [ho1]
      constructor
      · exact hbo2
      · simp [h.histLen]
      · intro i hi
        simp only [List.length_append, List.length_cons, List.length_nil] at hi
        rcases Nat.lt_or_ge i s.history.length with hlt | hge
        · have := h.histPly i hlt
          simp only [List.get_eq_getElem] at this ⊢
          rw [List.getElem_append_left hlt]
          exact this
        · have hieq : i = s.history.length := by omega
          subst hieq
          simp only [List.get_eq_getElem, List.getElem_concat_length]
          have hply : (Game.constructMoveDescription s.board (s.plies + 1) f).ply_count
              = s.plies + 1 := constructMoveDescription_ply s.board (s.plies + 1) f
          simp only [hply, h.histLen]
      · exact h.notBothResigned
      · exact hop
      · intro hzero
        rcases hzero with hz | hz
        · exact absurd hz hw0
        · exact absurd hz hb0

/-- `Game.__init__` establishes the reachable-state invariant. -/
theorem init_inv (creator : String) (gameId : Option String) (tc : Option Int) :
    Inv (Game.init creator gameId tc) := by
  constructor <;> simp [Game.init, initialBoard, BoardOk, OffersProp]

/-- Every reachable state satisfies the invariant. -/
theorem reach_inv (E : Engine) (s : GameState) (h : Reach E s) : Inv s := by
  induction h with
  | init c g tc hv => exact init_inv c g tc
  | move s san hs ih => exact move_inv E s san ih
  | addPlayer s pid side hs ih => exact add_player_inv s pid side ih
  | timeDelta s d a hs ih => exact time_delta_inv s d a ih
  | resign s a hs ih => exact resign_inv s a ih
  | offerDraw s a hs ih => exact offer_draw_inv s a ih
  | acceptDraw s a hs ih => exact accept_draw_inv s a ih
  | declineDraw s a hs ih => exact decline_draw_inv s a ih

/-- `Game.decline_draw` writes at most the `made` flags: the `accepted` flags
survive. -/
theorem decline_draw_accepted (s : GameState) (a : Option Side) :
    (Game.decline_draw s a).drawOffers.w.accepted = s.drawOffers.w.accepted
    ∧ (Game.decline_draw s a).drawOffers.b.accepted = s.drawOffers.b.accepted := by
  unfold Game.decline_draw
  dsimp only []
  generalize a.getD (Game.turn s) = side
  split_ifs
  · exact ⟨rfl, rfl⟩
  · exact ⟨rfl, rfl⟩
  · exact ⟨rfl, rfl⟩
  · cases side <;> simp [SidePair.set, SidePair.get, Side.invert]

/-- `Game.result` does not read the `made` flags: two states differing only in
`drawOffers` but agreeing on the `accepted` flags have the same result. -/
theorem result_congr_offers (s : GameState) (o : SidePair Offer)
    (hw : o.w.accepted = s.drawOffers.w.accepted)
    (hb : o.b.accepted = s.drawOffers.b.accepted) :
    Game.result { s with drawOffers := o } = Game.result s := by
  unfold Game.result
  dsimp only []
  rw [hw, hb]

/-- Declining a draw never changes the game result. -/
theorem decline_draw_result (s : GameState) (a : Option Side) :
    Game.result (Game.decline_draw s a) = Game.result s := by
  obtain ⟨o, ho⟩ := decline_draw_update s a
  obtain ⟨hw, hb⟩ := decline_draw_accepted s a
  rw [ho] at hw hb ⊢
  exact result_congr_offers s o hw hb

/-- `decline_draw` for `'w'` clears black's pending (non-accepted) offer and
leaves white's record untouched. -/
theorem decline_draw_w_clears_b (u : GameState) (hu : Game.in_progress u = true)
    (hacc : u.drawOffers.b.accepted = false) :
    (Game.decline_draw u (some Side.w)).drawOffers.b.made = false
    ∧ (Game.decline_draw u (some Side.w)).drawOffers.w = u.drawOffers.w := by
  unfold Game.decline_draw
  dsimp only [Option.getD_some]
  split_ifs with h1 h2 h3
  · simp [hu] at h1
  · exact ⟨by simpa [Side.invert, SidePair.get] using h2, rfl⟩
  · simp [Side.invert, SidePair.get, hacc] at h3
  · simp [Side.invert, SidePair.get, SidePair.set]

/-- `decline_draw` for `'b'` clears white's pending (non-accepted) offer and
leaves black's record untouched. -/
theorem decline_draw_b_clears_w (u : GameState) (hu : Game.in_progress u = true)
    (hacc : u.drawOffers.w.accepted = false) :
    (Game.decline_draw u (some Side.b)).drawOffers.w.made = false
    ∧ (Game.decline_draw u (some Side.b)).drawOffers.b = u.drawOffers.b := by
  unfold Game.decline_draw
  dsimp only [Option.getD_some]
  split_ifs with h1 h2 h3
  · simp [hu] at h1
  · exact ⟨by simpa [Side.invert, SidePair.get] using h2, rfl⟩
  · simp [Side.invert, SidePair.get, hacc] at h3
  · simp [Side.invert, SidePair.get, SidePair.set]

/-- The draw-offer clearing loop of `Game.move` (`decline_draw` for `'w'` then
for `'b'`) clears both `made` flags whenever the state is still in
progress. -/
theorem decline_both_clears (u : GameState) (hu : Game.in_progress u = true) :
    (Game.decline_draw (Game.decline_draw u (some Side.w)) (some Side.b)).drawOffers.w.made
      = false
    ∧ (Game.decline_draw (Game.decline_draw u (some Side.w)) (some Side.b)).drawOffers.b.made
      = false := by
  obtain ⟨_, _, _, haw, hab, _, _⟩ := (in_progress_iff_flags u).1 hu
  obtain ⟨hbm1, hw1⟩ := decline_draw_w_clears_b u hu hab
  have hu1 : Game.in_progress (Game.decline_draw u (some Side.w)) = true := by
    rw [Game.in_progress, decline_draw_result]
    exact hu
  have haw1 : (Game.decline_draw u (some Side.w)).drawOffers.w.accepted = false := by
    rw [hw1]
    exact haw
  obtain ⟨hwm2, hb2⟩ := decline_draw_b_clears_w (Game.decline_draw u (some Side.w)) hu1 haw1
  refine ⟨hwm2, ?_⟩
  rw [hb2]
  exact hbm1

/-- The catch-up loop equals `List.drop` when the upper bound is the list
length. -/
theorem catchUp_eq_drop (hist : List MoveDesc) (p : Nat) (hp : p ≤ hist.length) :
    catchUp hist p hist.length = hist.drop p := by
  apply List.ext_getElem
  · simp [catchUp]
  · intro i h1 h2
    simp only [catchUp, List.getElem_map, List.getElem_range, List.getElem_drop]
    have hbound : p + i < hist.length := by
      simp only [catchUp, List.length_map, List.length_range] at h1
      omega
    exact List.getD_eq_getElem hist defaultMoveDesc hbound

/-- When only a clock condition holds, `Game.game_over` reports `Time`. -/
theorem game_over_time (s : GameState)
    (hb : s.board.isGameOverClaim = false)
    (hrw : s.resigned.w = false) (hrb : s.resigned.b = false)
    (haw : s.drawOffers.w.accepted = false) (hab : s.drawOffers.b.accepted = false)
    (ht : s.remainingTime.w = some 0 ∨ s.remainingTime.b = some 0) :
    Game.game_over s = ⟨true, some "Time"⟩ := by
  unfold Game.game_over
  rw [hb, hrw, hrb, haw, hab]
  rcases ht with h | h <;> simp [h]

/-! ## Claim theorems -/

/-- Claim C1: in every reachable `Game` state with at least one side's
remaining clock equal to 0, the game is over and `game_over` reports the
reason `"Time"`, whatever the board position: on reachable states a zero
clock can never coexist with a rules-based termination, a resignation or an
accepted draw offer, so the `"Time"` branch is the one that answers. -/
theorem c1_zero_clock_reports_time (E : Engine) (s : GameState) (h : Reach E s)
    (hz : s.remainingTime.w = some 0 ∨ s.remainingTime.b = some 0) :
    Game.game_over s = ⟨true, some "Time"⟩ := by
  obtain ⟨hgo, hrw, hrb, haw, hab⟩ := (reach_inv E s h).zeroClock hz
  exact game_over_time s hgo hrw hrb haw hab hz

/-- Witness for C1: a game created with `time_controls = 0` starts with both
clocks at zero and reports game over with reason `"Time"`. -/
theorem c1_zero_clock_reports_time_witness :
    Reach trivialEngine (Game.init "alice" none (some 0))
    ∧ (Game.init "alice" none (some 0)).remainingTime.w = some 0
    ∧ Game.game_over (Game.init "alice" none (some 0)) = ⟨true, some "Time"⟩ := by
  have hr : Reach trivialEngine (Game.init "alice" none (some 0)) :=
    Reach.init "alice" none (some 0) (by intro t ht; injection ht with h2; omega)
  exact ⟨hr, rfl, c1_zero_clock_reports_time trivialEngine _ hr (Or.inl rfl)⟩

/-- Claim C4: in every state reachable from a fresh game,
`len(history) == plyCount`, and the descriptor stored at 0-based index `i`
carries `ply_count == i + 1`. -/
theorem c4_history_length_and_ply (E : Engine) (s : GameState) (h : Reach E s) :
    s.history.length = s.plies
    ∧ ∀ i (hi : i < s.history.length), (s.history.get ⟨i, hi⟩).ply_count = i + 1 :=
  ⟨(reach_inv E s h).histLen, (reach_inv E s h).histPly⟩

/-- Witness for C4 at the freshly created game. -/
theorem c4_history_length_and_ply_witness :
    Reach trivialEngine (Game.init "bob" none none)
    ∧ (Game.init "bob" none none).history.length = (Game.init "bob" none none).plies := by
  have hr : Reach trivialEngine (Game.init "bob" none none) :=
    Reach.init "bob" none none (by intro t ht; cases ht)
  exact ⟨hr, (c4_history_length_and_ply trivialEngine _ hr).1⟩

/-- Claim C6: `Game.result` agrees with the spec's override chain (base rules
result, then resignation — the spec applies the two resignation rules in the
opposite order to the code, which only matters when both sides have resigned,
a situation no reachable state exhibits — then accepted-draw, then the three
clock overrides) on every reachable state. -/
theorem c6_result_priority (E : Engine) (s : GameState) (h : Reach E s) :
    Game.result s = resultSpecOrder s := by
  have hnr := (reach_inv E s h).notBothResigned
  unfold Game.result resultSpecOrder
  dsimp only []
  cases hw : s.resigned.w <;> cases hbb : s.resigned.b
  · rfl
  · rfl
  · rfl
  · exact absurd ⟨hw, hbb⟩ hnr

/-- Witness for C6 at the freshly created game. -/
theorem c6_result_priority_witness :
    Reach trivialEngine (Game.init "carol" none none)
    ∧ Game.result (Game.init "carol" none none)
        = resultSpecOrder (Game.init "carol" none none) := by
  have hr : Reach trivialEngine (Game.init "carol" none none) :=
    Reach.init "carol" none none (by intro t ht; cases ht)
  exact ⟨hr, c6_result_priority trivialEngine _ hr⟩

/-- Claim C10: whenever the board satisfies the python-chess coherence
guarantee, the two independently derived termination judgements agree:
`game_over['game_over']` is true exactly when `result() != '*'`, and
`in_progress` is the negation of `game_over['game_over']`. -/
theorem c10_game_over_agrees_with_result (s : GameState) (hb : BoardOk s.board) :
    ((Game.game_over s).game_over = true ↔ Game.result s ≠ "*")
    ∧ Game.in_progress s = !(Game.game_over s).game_over := by
  have hiff : (Game.game_over s).game_over = true ↔ Game.result s ≠ "*" := by
    rw [game_over_true_iff]
    constructor
    · intro hor hstar
      obtain ⟨hbs, hrw, hrb, haw, hab, hw0, hb0⟩ := (result_eq_star_iff s).1 hstar
      have hgo : s.board.isGameOverClaim = false := hb.1 hbs
      rcases hor with hc | hc | hc | hc | hc | hc | hc <;> simp_all
    · intro hne
      by_contra hnone
      push_neg at hnone
      obtain ⟨h1, h2, h3, h4, h5, h6, h7⟩ := hnone
      apply hne
      rw [result_eq_star_iff]
      refine ⟨hb.2 (by simpa using h1), by simpa using h2, by simpa using h3,
        by simpa using h4, by simpa using h5, h6, h7⟩
  refine ⟨hiff, ?_⟩
  cases hg : (Game.game_over s).game_over
  · have hstar : Game.result s = "*" := by
      by_contra hne
      have hcontra := hiff.2 hne
      simp [hg] at hcontra
    simp [Game.in_progress, hstar]
  · have hne : Game.result s ≠ "*" := hiff.1 hg
    simp [Game.in_progress, hne]

/-- Witness for C10 at the freshly created (in-progress) game. -/
theorem c10_game_over_agrees_with_result_witness :
    BoardOk (Game.init "dave" none none).board
    ∧ Game.in_progress (Game.init "dave" none none)
        = !(Game.game_over (Game.init "dave" none none)).game_over := by
  have hb : BoardOk (Game.init "dave" none none).board := by
    unfold BoardOk
    decide
  exact ⟨hb, (c10_game_over_agrees_with_result (Game.init "dave" none none) hb).2⟩

/-- Claim C2 counterexample: a game created with `time_controls = 0` is
already over (`reason 'Time'`), yet `add_player` still assigns the free white
slot, mutating the `players` field — so not every operation leaves a
finished match unchanged. -/
theorem c2_add_player_mutates_after_over :
    (Game.game_over (Game.init "alice" none (some 0))).game_over = true
    ∧ (Game.add_player (Game.init "alice" none (some 0)) "bob" Side.w).1
        ≠ Game.init "alice" none (some 0) := by
  constructor
  · decide
  · decide

/-- Claim C2 (amended): once `game_over` reports true (for a board satisfying
the python-chess coherence guarantee), `move`, `resign`, `offer_draw`,
`accept_draw`, `decline_draw` and `time_delta` all leave the `Game` state
unchanged; `add_player` is excluded, since it carries no game-over guard. -/
theorem c2_operations_frozen_after_over (E : Engine) (s : GameState)
    (hb : BoardOk s.board) (hover : (Game.game_over s).game_over = true) :
    (∀ san, Game.move E s san = (s, .error .matchOver))
    ∧ (∀ a, Game.resign s a = s)
    ∧ (∀ a, Game.offer_draw s a = s)
    ∧ (∀ a, Game.accept_draw s a = s)
    ∧ (∀ a, Game.decline_draw s a = s)
    ∧ (∀ d a, Game.time_delta s d a = s) := by
  have hnp : Game.in_progress s = false := by
    cases hq : Game.in_progress s
    · rfl
    · exfalso
      obtain ⟨hbs, hrw, hrb, haw, hab, hw0, hb0⟩ := (in_progress_iff_flags s).1 hq
      have hgo : s.board.isGameOverClaim = false := hb.1 hbs
      rcases (game_over_true_iff s).1 hover with hc | hc | hc | hc | hc | hc | hc <;>
        simp_all
  refine ⟨?_, ?_, ?_, ?_, ?_, ?_⟩
  · intro san
    unfold Game.move
    rw [if_pos hnp]
  · intro a
    unfold Game.resign
    dsimp only []
    rw [if_pos hnp]
  · intro a
    unfold Game.offer_draw
    dsimp only []
    rw [if_pos hnp]
  · intro a
    unfold Game.accept_draw
    dsimp only []
    rw [if_pos hnp]
  · intro a
    unfold Game.decline_draw
    dsimp only []
    rw [if_pos hnp]
  · intro d a
    unfold Game.time_delta
    dsimp only []
    cases hq : s.timeControls
    · simp
    · rw [if_neg (by simp), if_pos hnp]

/-- Witness for the amended C2 at the zero-time game: `resign` is a no-op on
the finished match. -/
theorem c2_operations_frozen_after_over_witness :
    BoardOk (Game.init "alice" none (some 0)).board
    ∧ (Game.game_over (Game.init "alice" none (some 0))).game_over = true
    ∧ Game.resign (Game.init "alice" none (some 0)) (some Side.w)
        = Game.init "alice" none (some 0) := by
  have hb : BoardOk (Game.init "alice" none (some 0)).board := by
    unfold BoardOk
    decide
  have hover : (Game.game_over (Game.init "alice" none (some 0))).game_over = true := by
    decide
  exact ⟨hb, hover,
    (c2_operations_frozen_after_over trivialEngine _ hb hover).2.1 (some Side.w)⟩

/-- Claim C5: `Game.move` fails with the match-over error first (game not in
progress), the no-player error second (side to move unoccupied), and the
illegal-move error third (`push_san` rejected the SAN); every failure leaves
the state exactly as it was. -/
theorem c5_move_error_order (E : Engine) (s : GameState) (san : String) :
    (Game.in_progress s = false → Game.move E s san = (s, .error .matchOver))
    ∧ (Game.in_progress s = true → s.players.get (Game.turn s) = none →
        Game.move E s san = (s, .error .noPlayer))
    ∧ (Game.in_progress s = true → (s.players.get (Game.turn s)).isSome = true →
        E.pushSan s.board san = none → Game.move E s san = (s, .error .illegalMove))
    ∧ (∀ e, (Game.move E s san).2 = .error e → (Game.move E s san).1 = s) := by
  refine ⟨?_, ?_, ?_, ?_⟩
  · intro h1
    unfold Game.move
    rw [if_pos h1]
  · intro h1 h2
    unfold Game.move
    rw [if_neg (by simp [h1]), if_pos (by simp [h2])]
  · intro h1 h2 h3
    unfold Game.move
    rw [if_neg (by simp [h1]), if_neg (by simp [Option.isNone_iff_eq_none]; intro hc; rw [hc] at h2; cases h2), h3]
  · intro e
    unfold Game.move
    split_ifs with h1 h2
    · intro _; rfl
    · intro _; rfl
    · cases hq : E.pushSan s.board san with
      | none => intro _; rfl
      | some r =>
        obtain ⟨b2, f⟩ := r
        intro hcontra
        simp at hcontra

/-- Witness for C5 (spec scenario 1): on a fresh untimed game with no player
assigned, the first `move` call fails with the no-player error and changes
nothing. -/
theorem c5_move_error_order_witness :
    Game.in_progress (Game.init "erin" none none) = true
    ∧ (Game.init "erin" none none).players.get (Game.turn (Game.init "erin" none none)) = none
    ∧ Game.move trivialEngine (Game.init "erin" none none) "e4"
        = (Game.init "erin" none none, .error .noPlayer) := by
  refine ⟨by decide, by decide, ?_⟩
  exact (c5_move_error_order trivialEngine (Game.init "erin" none none) "e4").2.1
    (by decide) (by decide)

/-- Claim C8: on a reachable in-progress state where white (FIRST) has a
pending, unaccepted draw offer, a single `offer_draw` by black (SECOND)
auto-accepts white's offer (`accepted` becomes true with no separate
`accept_draw` call) and records black's own offer (`made` becomes true). -/
theorem c8_mutual_offer_auto_accept (E : Engine) (s : GameState) (h : Reach E s)
    (hm : s.drawOffers.w.made = true) (hna : s.drawOffers.w.accepted = false)
    (hp : Game.in_progress s = true) :
    (Game.offer_draw s (some Side.b)).drawOffers.w.accepted = true
    ∧ (Game.offer_draw s (some Side.b)).drawOffers.b.made = true := by
  obtain ⟨hstar, hrw, hrb, haw, hab, hw0, hb0⟩ := (in_progress_iff_flags s).1 hp
  have hbm : s.drawOffers.b.made = false := by
    cases hq : s.drawOffers.b.made
    · rfl
    · rcases (reach_inv E s h).offersInv hm hq with hc | hc
      · rw [haw] at hc; cases hc
      · rw [hab] at hc; cases hc
  unfold Game.offer_draw Game.accept_draw
  dsimp only [Option.getD_some]
  rw [if_neg (by simp [hp]), if_neg (by simp [SidePair.get, hbm]),
    if_pos (by simp [Side.invert, SidePair.get, hm]), if_neg (by simp [hp]),
    if_neg (by simp [Side.invert, SidePair.get, hm])]
  simp [Side.invert, SidePair.get, SidePair.set]

/-- Witness for C8: white offers a draw on a fresh game, then black's
`offer_draw` call alone marks white's offer accepted and black's offer
made. -/
theorem c8_mutual_offer_auto_accept_witness :
    Reach trivialEngine (Game.offer_draw (Game.init "frank" none none) (some Side.w))
    ∧ (Game.offer_draw (Game.offer_draw (Game.init "frank" none none) (some Side.w))
        (some Side.b)).drawOffers.w.accepted = true
    ∧ (Game.offer_draw (Game.offer_draw (Game.init "frank" none none) (some Side.w))
        (some Side.b)).drawOffers.b.made = true := by
  have hr : Reach trivialEngine (Game.offer_draw (Game.init "frank" none none) (some Side.w)) :=
    Reach.offerDraw _ (some Side.w) (Reach.init "frank" none none (by intro t ht; cases ht))
  have hc := c8_mutual_offer_auto_accept trivialEngine _ hr (by decide) (by decide) (by decide)
  exact ⟨hr, hc.1, hc.2⟩

/-- Claim C3 counterexample: black delivers fool's mate while white has a
pending draw offer; the move is accepted (`move` returns a descriptor), yet
white's `made` flag survives, because the draw-offer clearing runs through
`decline_draw`, which is a no-op once the game is no longer in progress. -/
theorem c3_mate_keeps_pending_offer :
    (Game.move mateEngine preMateGame "Qh4#").2.toOption.isSome = true
    ∧ ((Game.move mateEngine preMateGame "Qh4#").1).drawOffers.w.made = true := by
  constructor
  · rfl
  · rfl

/-- Claim C3 (amended): every accepted move *after which the game is still in
progress* leaves both sides' `made` flags false; a game-ending move skips the
clearing. -/
theorem c3_accepted_move_clears_offers (E : Engine) (s : GameState) (san : String)
    (d : MoveDesc) (hok : (Game.move E s san).2 = .ok d)
    (hip : Game.in_progress (Game.move E s san).1 = true) :
    ((Game.move E s san).1).drawOffers.w.made = false
    ∧ ((Game.move E s san).1).drawOffers.b.made = false := by
  unfold Game.move at hok hip ⊢
  by_cases h1 : Game.in_progress s = false
  · rw [if_pos h1] at hok
    simp at hok
  · rw [if_neg h1] at hok hip ⊢
    by_cases h2 : (s.players.get (Game.turn s)).isNone = true
    · rw [if_pos h2] at hok
      simp at hok
    · rw [if_neg h2] at hok hip ⊢
      cases hq : E.pushSan s.board san with
      | none =>
        rw [hq] at hok
        simp at hok
      | some r =>
        obtain ⟨b2, f⟩ := r
        rw [hq] at hip
        dsimp only [] at hip ⊢
        have hip2 : Game.in_progress
            (Game.decline_draw
              (Game.decline_draw { s with board := b2, plies := s.plies + 1 } (some Side.w))
              (some Side.b)) = true := hip
        have hu : Game.in_progress { s with board := b2, plies := s.plies + 1 } = true := by
          rw [Game.in_progress] at hip2 ⊢
          rw [decline_draw_result, decline_draw_result] at hip2
          exact hip2
        exact decline_both_clears { s with board := b2, plies := s.plies + 1 } hu

/-- Witness for the amended C3: the en-passant capture 3.exd6 leaves the game
in progress and both `made` flags cleared. -/
theorem c3_accepted_move_clears_offers_witness :
    Game.in_progress (Game.move epEngine epGame "exd6").1 = true
    ∧ ((Game.move epEngine epGame "exd6").1).drawOffers.w.made = false
    ∧ ((Game.move epEngine epGame "exd6").1).drawOffers.b.made = false := by
  have hok : (Game.move epEngine epGame "exd6").2
      = .ok ((Game.move epEngine epGame "exd6").2.toOption.getD defaultMoveDesc) := rfl
  have hip : Game.in_progress (Game.move epEngine epGame "exd6").1 = true := rfl
  have hc := c3_accepted_move_clears_offers epEngine epGame "exd6" _ hok hip
  exact ⟨hip, hc.1, hc.2⟩

/-- Claim C7: a validated poll with no error value and an assigned, stored
match answers with the match's `game_over` status and exactly the history
slice from the reported ply to the match's ply count (`List.drop`); with no
assigned match, or with an error value supplied, the catch-up list is empty
regardless of the ply gap. -/
theorem c7_poll_catchup (ctrl : ControllerDoc) (getGame : String → Option GameDoc)
    (p : Nat) (error : Int) (now : Nat) (gameId : String) (g : GameDoc)
    (hassigned : ctrl.game_id = some gameId) (hg : getGame gameId = some g)
    (hbound : p ≤ g.ply_count) (hlen : g.ply_count = g.history.length) :
    (error = -1 →
      (controller_poll ctrl getGame p error now).2.1
        = ⟨g.game_over, g.history.drop p⟩)
    ∧ (error ≠ -1 → (controller_poll ctrl getGame p error now).2.1.history = [])
    ∧ (∀ c2 p2 e2 n2, ControllerDoc.game_id c2 = none →
        (controller_poll c2 getGame p2 e2 n2).2.1.history = []) := by
  refine ⟨?_, ?_, ?_⟩
  · intro herr
    subst herr
    unfold controller_poll
    simp only [hassigned, hg, eq_self_iff_true, if_true, ite_true]
    rw [hlen] at hbound ⊢
    rw [catchUp_eq_drop g.history p hbound]
  · intro herr
    unfold controller_poll
    simp only [hassigned, if_neg herr]
  · intro c2 p2 e2 n2 hnone
    unfold controller_poll
    simp only [hnone]

/-- Witness for C7 (spec scenario 4): a controller caught up to ply 0 polling
a two-entry match receives exactly the two stored descriptors, in order. -/
theorem c7_poll_catchup_witness :
    pollCtrl.game_id = some "b1g"
    ∧ pollStore "b1g" = some pollGame
    ∧ (controller_poll pollCtrl pollStore 0 (-1) 5).2.1
        = ⟨pollGame.game_over, [pollDesc1, pollDesc2]⟩ := by
  have h := (c7_poll_catchup pollCtrl pollStore 0 (-1) 5 "b1g" pollGame rfl rfl
    (by decide) rfl).1 rfl
  exact ⟨rfl, rfl, h.trans (by rfl)⟩

/-- On an en-passant capture, `_construct_move_description` marks the capture
as a pawn capture and stores `square_name(ep_square + down)` as the captured
pawn's square (`down` is `-8` for a white mover, `+8` for black). -/
theorem constructMoveDescription_ep (pre : Board) (n : Nat) (f : MoveFacts)
    (hcap : f.isCapture = true) (hep : f.isEnPassant = true) :
    (Game.constructMoveDescription pre n f).capture = ⟨true, some "p"⟩
    ∧ (Game.constructMoveDescription pre n f).en_passant
        = ⟨true, some (squareName (f.epSquare + (if pre.turnWhite = true then (-8 : Int) else 8)))⟩
    ∧ (Game.constructMoveDescription pre n f).toSq = squareName f.toSquare := by
  unfold Game.constructMoveDescription
  dsimp only []
  cases hw : pre.turnWhite <;> simp only [hw, hcap, hep] <;> split_ifs <;> simp_all

/-- `Char.ofNat` is faithful below the surrogate range. -/
theorem char_ofNat_toNat (n : Nat) (h : n < 55296) : (Char.ofNat n).toNat = n := by
  unfold Char.ofNat
  split
  · rfl
  · rename_i hglue
    exact absurd (Or.inl h) hglue

/-- The two-character square names of two squares on different ranks
differ. -/
theorem squareName_ne_of_rank_ne (a b : Int) (ha : 0 ≤ a) (hb : 0 ≤ b)
    (ha64 : a < 64) (hb64 : b < 64) (hr : a / 8 ≠ b / 8) :
    squareName a ≠ squareName b := by
  intro hcontra
  unfold squareName at hcontra
  have hdata : [Char.ofNat (97 + a.toNat % 8), Char.ofNat (49 + a.toNat / 8)]
      = [Char.ofNat (97 + b.toNat % 8), Char.ofNat (49 + b.toNat / 8)] :=
    congrArg String.data hcontra
  simp only [List.cons.injEq] at hdata
  have hchar : Char.ofNat (49 + a.toNat / 8) = Char.ofNat (49 + b.toNat / 8) :=
    hdata.2.1
  have hdivs : a.toNat / 8 ≠ b.toNat / 8 := by
    intro hc
    apply hr
    omega
  have hlta : a.toNat / 8 < 8 := by omega
  have hltb : b.toNat / 8 < 8 := by omega
  have hne : (49 + a.toNat / 8) ≠ (49 + b.toNat / 8) := by omega
  apply hne
  have htoa : (Char.ofNat (49 + a.toNat / 8)).toNat = 49 + a.toNat / 8 :=
    char_ofNat_toNat _ (by omega)
  have htob : (Char.ofNat (49 + b.toNat / 8)).toNat = 49 + b.toNat / 8 :=
    char_ofNat_toNat _ (by omega)
  rw [← htoa, ← htob, hchar]

/-- Claim C9: an accepted en-passant capture produces a descriptor with
`capture.flag` true, `capture.piece == 'p'`, `en_passant.flag` true, and
`en_passant.square` equal to the destination square shifted one rank toward
the mover's own back rank — a square different from the destination.
The python-chess facts used as hypotheses: `is_en_passant` requires
`ep_square == move.to_square`; `is_capture` includes en-passant captures; the
en-passant target square lies on rank 6 for a white mover and rank 3 for a
black mover. -/
theorem c9_en_passant_descriptor (E : Engine) (s : GameState) (san : String)
    (b2 : Board) (f : MoveFacts) (d : MoveDesc)
    (hpush : E.pushSan s.board san = some (b2, f))
    (hok : (Game.move E s san).2 = .ok d)
    (hep : f.isEnPassant = true)
    (hepsq : f.epSquare = f.toSquare)
    (hcap : f.isCapture = true)
    (hrank : if s.board.turnWhite = true then 40 ≤ f.toSquare ∧ f.toSquare < 48
      else 16 ≤ f.toSquare ∧ f.toSquare < 24) :
    d.capture.capture = true ∧ d.capture.piece = some "p"
    ∧ d.en_passant.en_passant = true
    ∧ d.en_passant.square
        = some (squareName (f.toSquare + (if s.board.turnWhite = true then (-8 : Int) else 8)))
    ∧ d.toSq = squareName f.toSquare
    ∧ d.en_passant.square ≠ some d.toSq := by
  unfold Game.move at hok
  by_cases h1 : Game.in_progress s = false
  · rw [if_pos h1] at hok
    simp at hok
  · rw [if_neg h1] at hok
    by_cases h2 : (s.players.get (Game.turn s)).isNone = true
    · rw [if_pos h2] at hok
      simp at hok
    · rw [if_neg h2] at hok
      rw [hpush] at hok
      dsimp only [] at hok
      simp only [Except.ok.injEq] at hok
      obtain ⟨hc1, hc2, hc3⟩ := constructMoveDescription_ep s.board (s.plies + 1) f hcap hep
      have hd1 : d.capture = ⟨true, some "p"⟩ := by rw [← hok]; exact hc1
      have hd2 : d.en_passant = ⟨true, some (squareName (f.epSquare
          + (if s.board.turnWhite = true then (-8 : Int) else 8)))⟩ := by
        rw [← hok]; exact hc2
      have hd3 : d.toSq = squareName f.toSquare := by rw [← hok]; exact hc3
      have hne : squareName (f.toSquare
          + (if s.board.turnWhite = true then (-8 : Int) else 8)) ≠ squareName f.toSquare := by
        cases hw : s.board.turnWhite
        · rw [hw] at hrank
          simp only [Bool.false_eq_true, if_false] at hrank ⊢
          obtain ⟨hlo, hhi⟩ := hrank
          apply squareName_ne_of_rank_ne <;> omega
        · rw [hw] at hrank
          simp only [if_pos rfl] at hrank ⊢
          obtain ⟨hlo, hhi⟩ := hrank
          apply squareName_ne_of_rank_ne <;> omega
      refine ⟨by rw [hd1], by rw [hd1], by rw [hd2], ?_, hd3, ?_⟩
      · rw [hd2, hepsq]
      · rw [hd2, hd3, hepsq]
        simp only [ne_eq, Option.some.injEq]
        exact hne

/-- Witness for C9: the en-passant capture 3.exd6 (e5 pawn takes the d5 pawn,
landing on d6 = square 43): the descriptor records a pawn capture with the
captured pawn on d5 = square 35, one rank below the destination. -/
theorem c9_en_passant_descriptor_witness :
    epEngine.pushSan epGame.board "exd6" = some (quietBoardB, epFacts)
    ∧ epFacts.isEnPassant = true
    ∧ ((Game.move epEngine epGame "exd6").2.toOption.getD defaultMoveDesc).capture.piece
        = some "p"
    ∧ ((Game.move epEngine epGame "exd6").2.toOption.getD defaultMoveDesc).en_passant.square
        ≠ some ((Game.move epEngine epGame "exd6").2.toOption.getD defaultMoveDesc).toSq := by
  have h := c9_en_passant_descriptor epEngine epGame "exd6" quietBoardB epFacts
    ((Game.move epEngine epGame "exd6").2.toOption.getD defaultMoveDesc)
    rfl rfl rfl rfl rfl (by decide)
  exact ⟨rfl, rfl, h.2.1, h.2.2.2.2.2⟩

end Negativei2
